import Mathlib

/-!
Shallow embedding of the board interaction controller of a chess GUI
(`src/main.rs`).  The rule engine (crate `murnion_chess`) is an external
collaborator: its legal-move query, move application and fresh-game
constructor appear as parameters, and its en-passant and castling records
as opaque type parameters.  Rust panics are modelled as `Except.error`
values of type `RsPanic`; machine `usize` values are modelled as `Nat`.
-/

/-- Engine colour enumeration (`murnion_chess::Colour`). -/
inductive Colour
  | White
  | Black
  deriving DecidableEq, Repr

/-- Engine piece enumeration (`murnion_chess::Piece`): six kinds carrying a
colour, plus an empty-square marker. -/
inductive Piece
  | King (c : Colour)
  | Queen (c : Colour)
  | Rook (c : Colour)
  | Knight (c : Colour)
  | Bishop (c : Colour)
  | Pawn (c : Colour)
  | Empty
  deriving DecidableEq, Repr

/-- The ways the controller code can panic: the two explicit panics of
`move_string` and an out-of-bounds board index in the click handler. -/
inductive RsPanic
  | fileWrong
  | rankWrong
  | indexOOB
  deriving DecidableEq, Repr

/-- Engine game state as the GUI reads it: `game.board`,
`game.current_turn`, `game.en_passant_square`, `game.castlings`.  The last
two are opaque to the GUI (only forwarded to the engine), hence type
parameters. -/
structure Game (EP CA : Type) where
  board : List (List Piece)
  current_turn : Colour
  en_passant_square : EP
  castlings : CA
  deriving DecidableEq

/-- `AppState` of `main.rs` minus the sprite cache (render-only). -/
structure AppState (EP CA : Type) where
  game : Game EP CA
  selected_square : Option (Nat × Nat)
  highlighted_squares : List (Nat × Nat)
  deriving DecidableEq

/-- Mouse buttons as far as the handler distinguishes them. -/
inductive MouseButton
  | Left
  | Right
  | Other
  deriving DecidableEq

/-- Keys as far as `key_down_event` distinguishes them. -/
inductive KeyCode
  | Escape
  | R
  | Other
  deriving DecidableEq

/-- `GRID_CELL_SIZE: (i16, i16) = (90, 90)` — pixel width and height of one
board cell. -/
def GRID_CELL_SIZE : Nat × Nat := (90, 90)

/-- Rust `self.game.board[rank][file]`: `none` models the index
out-of-bounds panic. -/
def boardGet (b : List (List Piece)) (rank file : Nat) : Option Piece :=
  match b.get? rank with
  | some row => row.get? file
  | none => none

/-- `get_colour` of `main.rs`: the colour of a non-empty piece. -/
def get_colour (piece : Piece) : Option Colour :=
  match piece with
  | Piece.King c => some c
  | Piece.Queen c => some c
  | Piece.Rook c => some c
  | Piece.Knight c => some c
  | Piece.Bishop c => some c
  | Piece.Pawn c => some c
  | Piece.Empty => none

/-- The file-letter match of `move_string`: indices 0–7 to letters a–h,
anything else is the `File wrong` panic. -/
def fileChar (f : Nat) : Except RsPanic Char :=
  match f with
  | 0 => Except.ok 'a'
  | 1 => Except.ok 'b'
  | 2 => Except.ok 'c'
  | 3 => Except.ok 'd'
  | 4 => Except.ok 'e'
  | 5 => Except.ok 'f'
  | 6 => Except.ok 'g'
  | 7 => Except.ok 'h'
  | _ => Except.error RsPanic.fileWrong

/-- Rust `char::from_digit(d, 10)`. -/
def char_from_digit (d : Nat) : Option Char :=
  if d < 10 then some (Char.ofNat (48 + d)) else none

/-- The rank match of `move_string`: ranks 0–7 push
`char::from_digit(8 - rank, 10).unwrap()` (the unwrap cannot fail there,
modelled by `getD`), anything else is the `Rank wrong` panic. -/
def rankChar (r : Nat) : Except RsPanic Char :=
  if r ≤ 7 then Except.ok ((char_from_digit (8 - r)).getD '0')
  else Except.error RsPanic.rankWrong

/-- `move_string` of `main.rs`: builds `"<fromFile><fromRank> <toFile><toRank>"`,
panicking (error) at the first out-of-range coordinate, in the order the
source pushes characters: from-file, from-rank, to-file, to-rank. -/
def move_string (_from _to : Nat × Nat) : Except RsPanic String :=
  match fileChar _from.2 with
  | Except.error e => Except.error e
  | Except.ok c1 =>
    match rankChar _from.1 with
    | Except.error e => Except.error e
    | Except.ok c2 =>
      match fileChar _to.2 with
      | Except.error e => Except.error e
      | Except.ok c3 =>
        match rankChar _to.1 with
        | Except.error e => Except.error e
        | Except.ok c4 => Except.ok (String.mk [c1, c2, ' ', c3, c4])

/-- Pixel to square, lines 163–164 of `main.rs`:
`rank = floor(y / cellHeight)`, `file = floor(x / cellWidth)`. -/
def squareFromPixel (x y : Nat) : Nat × Nat :=
  (y / GRID_CELL_SIZE.2, x / GRID_CELL_SIZE.1)

/-- Square to pixel as the draw loop places tiles and sprites
(`col * cellWidth`, `row * cellHeight`). -/
def pixelFromSquare (s : Nat × Nat) : Nat × Nat :=
  (s.2 * GRID_CELL_SIZE.1, s.1 * GRID_CELL_SIZE.2)

/-- The selection branch shared by the `Some pos` else-arm and the `None`
arm of the click handler: select the clicked square, clear highlights, and
if the square holds a piece of the current-turn colour query the engine
for its valid moves.  The board index happens before `get_colour`, so an
out-of-range square panics here. -/
def select_branch {EP CA : Type}
    (getValidMoves : Piece → Nat × Nat → List (List Piece) → EP → CA → Colour → List (Nat × Nat))
    (s : AppState EP CA) (rank file : Nat) :
    Except RsPanic (AppState EP CA × List String) :=
  match boardGet s.game.board rank file with
  | none => Except.error RsPanic.indexOOB
  | some piece =>
    match get_colour piece with
    | some c =>
      if c = s.game.current_turn then
        Except.ok ({ s with selected_square := some (rank, file),
                            highlighted_squares :=
                              getValidMoves piece (rank, file) s.game.board
                                s.game.en_passant_square s.game.castlings
                                s.game.current_turn }, [])
      else
        Except.ok ({ s with selected_square := some (rank, file),
                            highlighted_squares := [] }, [])
    | none =>
      Except.ok ({ s with selected_square := some (rank, file),
                          highlighted_squares := [] }, [])

/-- `mouse_button_up_event` of `main.rs`.  `getValidMoves` models the
engine call `piece.get_valid_moves(pos, board, en_passant, castlings, turn)`
and `takeTurn` models `game.take_turn(notation)`.  The returned list logs
the notations submitted to the engine during the event. -/
def mouse_button_up_event {EP CA : Type}
    (getValidMoves : Piece → Nat × Nat → List (List Piece) → EP → CA → Colour → List (Nat × Nat))
    (takeTurn : Game EP CA → String → Game EP CA)
    (s : AppState EP CA) (button : MouseButton) (x y : Nat) :
    Except RsPanic (AppState EP CA × List String) :=
  if button = MouseButton.Left then
    let rank := (squareFromPixel x y).1
    let file := (squareFromPixel x y).2
    match s.selected_square with
    | some pos =>
      if pos = (rank, file) then
        Except.ok ({ s with selected_square := none, highlighted_squares := [] }, [])
      else if (rank, file) ∈ s.highlighted_squares then
        match move_string pos (rank, file) with
        | Except.error e => Except.error e
        | Except.ok str =>
          Except.ok ({ s with game := takeTurn s.game str,
                              selected_square := none,
                              highlighted_squares := [] }, [str])
      else select_branch getValidMoves s rank file
    | none => select_branch getValidMoves s rank file
  else Except.ok (s, [])

/-- `key_down_event` of `main.rs`: Escape requests quit (second component),
R resets the game via `Game::new()` (modelled by the `gameNew` parameter)
and clears selection and highlights. -/
def key_down_event {EP CA : Type} (gameNew : Game EP CA)
    (s : AppState EP CA) (keycode : KeyCode) : AppState EP CA × Bool :=
  if keycode = KeyCode.Escape then (s, true)
  else if keycode = KeyCode.R then
    ({ game := gameNew, selected_square := none, highlighted_squares := [] }, false)
  else (s, false)

/-! Concrete instantiations of the opaque engine pieces, used to evaluate
the handlers on explicit inputs. -/

/-- A legal-move query returning no targets. -/
def gvm0 : Piece → Nat × Nat → List (List Piece) → Unit → Unit → Colour → List (Nat × Nat) :=
  fun _ _ _ _ _ _ => []

/-- An engine whose `take_turn` leaves the game unchanged (a rejecting
engine). -/
def tt0 : Game Unit Unit → String → Game Unit Unit := fun g _ => g

/-- An 8 by 8 board of empty squares. -/
def emptyBoard : List (List Piece) :=
  List.replicate 8 (List.replicate 8 Piece.Empty)

/-- A concrete game: empty board, White to move. -/
def game0 : Game Unit Unit :=
  { board := emptyBoard, current_turn := Colour.White,
    en_passant_square := (), castlings := () }

/-- A concrete idle application state. -/
def idleState : AppState Unit Unit :=
  { game := game0, selected_square := none, highlighted_squares := [] }

/-- A concrete state with square (2,3) selected and no highlights. -/
def selState : AppState Unit Unit :=
  { game := game0, selected_square := some (2, 3), highlighted_squares := [] }

/-- A concrete state with anchor (6,4) and the single legal target (4,4). -/
def commitState : AppState Unit Unit :=
  { game := game0, selected_square := some (6, 4),
    highlighted_squares := [(4, 4)] }

/-! Helper lemmas about the encoder characters. -/

lemma fileChar_ok (f : Nat) (h : f < 8) :
    fileChar f = Except.ok (Char.ofNat (97 + f)) := by
  interval_cases f <;> rfl

lemma rankChar_ok (r : Nat) (h : r < 8) :
    rankChar r = Except.ok (Char.ofNat (48 + (8 - r))) := by
  interval_cases r <;> rfl

/-- C3.  For in-range squares, `move_string` maps file index f to the
letter with code 97 + f (a–h), rank index r to the digit with code
48 + (8 - r), and joins the two square tokens with a single space. -/
theorem move_string_encodes (r1 f1 r2 f2 : Nat)
    (h1 : r1 < 8) (h2 : f1 < 8) (h3 : r2 < 8) (h4 : f2 < 8) :
    move_string (r1, f1) (r2, f2) =
      Except.ok (String.mk [Char.ofNat (97 + f1), Char.ofNat (48 + (8 - r1)), ' ',
        Char.ofNat (97 + f2), Char.ofNat (48 + (8 - r2))]) := by
  simp [move_string, fileChar_ok _ h2, rankChar_ok _ h1, fileChar_ok _ h4,
    rankChar_ok _ h3]

/-- C3 witness: the two encodings singled out by the specification. -/
theorem move_string_encodes_witness :
    move_string (6, 4) (4, 4) = Except.ok "e2 e4" ∧
      move_string (0, 0) (0, 0) = Except.ok "a8 a8" := by
  constructor
  · rw [move_string_encodes 6 4 4 4 (by decide) (by decide) (by decide) (by decide)]
  · rw [move_string_encodes 0 0 0 0 (by decide) (by decide) (by decide) (by decide)]

/-- C4.  The encoder given an out-of-range rank does not return a
recoverable value: it takes the `Rank wrong` panic path, which aborts the
process in the source. -/
theorem move_string_rank_out_of_range_panics :
    move_string (8, 0) (0, 0) = Except.error RsPanic.rankWrong := rfl

/-- C5.  A left-button release at pixel (0, 720) maps to square (8, 0),
outside the board; the handler does not discard it but indexes the board
out of bounds, a panic that aborts the process in the source. -/
theorem out_of_board_click_panics :
    mouse_button_up_event gvm0 tt0 idleState MouseButton.Left 0 720 =
      Except.error RsPanic.indexOOB := rfl

/-- C6.  Pixel/square round trip for in-range squares with the fixed
90 by 90 cell size. -/
theorem squareFromPixel_pixelFromSquare (r f : Nat) (h1 : r < 8) (h2 : f < 8) :
    squareFromPixel (pixelFromSquare (r, f)).1 (pixelFromSquare (r, f)).2 = (r, f) := by
  simp [squareFromPixel, pixelFromSquare, GRID_CELL_SIZE]

/-- C6 witness at square (3, 5). -/
theorem squareFromPixel_pixelFromSquare_witness :
    (3 : Nat) < 8 ∧ (5 : Nat) < 8 ∧
      squareFromPixel (pixelFromSquare (3, 5)).1 (pixelFromSquare (3, 5)).2 = (3, 5) :=
  ⟨by decide, by decide,
    squareFromPixel_pixelFromSquare 3 5 (by decide) (by decide)⟩

/-- C8.  Clicking the anchor square itself deselects: selection cleared,
highlights cleared, game untouched, no move submitted. -/
theorem click_anchor_deselects {EP CA : Type}
    (getValidMoves : Piece → Nat × Nat → List (List Piece) → EP → CA → Colour → List (Nat × Nat))
    (takeTurn : Game EP CA → String → Game EP CA)
    (s : AppState EP CA) (anchor : Nat × Nat)
    (h : s.selected_square = some anchor) :
    mouse_button_up_event getValidMoves takeTurn s MouseButton.Left
        (anchor.2 * 90) (anchor.1 * 90) =
      Except.ok ({ s with selected_square := none, highlighted_squares := [] }, []) := by
  obtain ⟨ar, af⟩ := anchor
  simp [mouse_button_up_event, squareFromPixel, GRID_CELL_SIZE, h]

/-- C8 witness: clicking the selected square (2, 3) of a concrete state. -/
theorem click_anchor_deselects_witness :
    mouse_button_up_event gvm0 tt0 selState MouseButton.Left 270 180 =
      Except.ok ({ selState with selected_square := none, highlighted_squares := [] }, []) :=
  click_anchor_deselects gvm0 tt0 selState (2, 3) rfl

/-- C9.  The reset key unconditionally produces a state whose game is the
fresh engine game and whose selection and highlights are cleared. -/
theorem reset_restores_initial {EP CA : Type} (gameNew : Game EP CA)
    (s : AppState EP CA) :
    key_down_event gameNew s KeyCode.R =
      ({ game := gameNew, selected_square := none, highlighted_squares := [] }, false) := by
  rfl

/-- The commit branch of the click handler: with an anchor selected, a
click on a highlighted non-anchor square submits the encoded move and
clears selection and highlights. -/
lemma mouse_commit_eq {EP CA : Type}
    (getValidMoves : Piece → Nat × Nat → List (List Piece) → EP → CA → Colour → List (Nat × Nat))
    (takeTurn : Game EP CA → String → Game EP CA)
    (s : AppState EP CA) (anchor t : Nat × Nat) (str : String)
    (hsel : s.selected_square = some anchor)
    (hmem : t ∈ s.highlighted_squares)
    (hanchor : anchor ∉ s.highlighted_squares)
    (hstr : move_string anchor t = Except.ok str) :
    mouse_button_up_event getValidMoves takeTurn s MouseButton.Left
        (t.2 * 90) (t.1 * 90) =
      Except.ok ({ s with game := takeTurn s.game str, selected_square := none,
                          highlighted_squares := [] }, [str]) := by
  obtain ⟨tr, tf⟩ := t
  have hne : anchor ≠ (tr, tf) := fun h => hanchor (h ▸ hmem)
  simp [mouse_button_up_event, squareFromPixel, GRID_CELL_SIZE, hsel, hne, hmem, hstr]

/-- C1.  From `Selected{anchor, legalTargets}`, clicking a legal target
`t` yields the idle state (no selection, no highlights) and exactly one
engine submission, whose notation is the encoding of anchor to t. -/
theorem commit_move_clears_selection {EP CA : Type}
    (getValidMoves : Piece → Nat × Nat → List (List Piece) → EP → CA → Colour → List (Nat × Nat))
    (takeTurn : Game EP CA → String → Game EP CA)
    (s : AppState EP CA) (anchor t : Nat × Nat) (str : String)
    (hsel : s.selected_square = some anchor)
    (hmem : t ∈ s.highlighted_squares)
    (hanchor : anchor ∉ s.highlighted_squares)
    (hstr : move_string anchor t = Except.ok str) :
    mouse_button_up_event getValidMoves takeTurn s MouseButton.Left
        (t.2 * 90) (t.1 * 90) =
      Except.ok ({ s with game := takeTurn s.game str, selected_square := none,
                          highlighted_squares := [] }, [str]) :=
  mouse_commit_eq getValidMoves takeTurn s anchor t str hsel hmem hanchor hstr

/-- C1 witness: committing (6,4) to (4,4) on a concrete state submits
exactly "e2 e4" and clears the selection. -/
theorem commit_move_clears_selection_witness :
    mouse_button_up_event gvm0 tt0 commitState MouseButton.Left 360 360 =
      Except.ok ({ commitState with
                   game := tt0 commitState.game "e2 e4",
                   selected_square := none,
                   highlighted_squares := [] }, ["e2 e4"]) :=
  commit_move_clears_selection gvm0 tt0 commitState (6, 4) (4, 4) "e2 e4"
    rfl (by decide) (by decide) rfl

/-- C10.  Whatever the engine does with the submitted move (`takeTurn` is
arbitrary, so in particular a rejecting engine), the click that submitted
it leaves the controller idle: no selection and no highlights. -/
theorem rejected_move_leaves_idle {EP CA : Type}
    (getValidMoves : Piece → Nat × Nat → List (List Piece) → EP → CA → Colour → List (Nat × Nat))
    (takeTurn : Game EP CA → String → Game EP CA)
    (s : AppState EP CA) (anchor t : Nat × Nat) (str : String)
    (hsel : s.selected_square = some anchor)
    (hmem : t ∈ s.highlighted_squares)
    (hanchor : anchor ∉ s.highlighted_squares)
    (hstr : move_string anchor t = Except.ok str)
    (s' : AppState EP CA) (log : List String)
    (hres : mouse_button_up_event getValidMoves takeTurn s MouseButton.Left
        (t.2 * 90) (t.1 * 90) = Except.ok (s', log)) :
    s'.selected_square = none ∧ s'.highlighted_squares = [] := by
  rw [mouse_commit_eq getValidMoves takeTurn s anchor t str hsel hmem hanchor hstr] at hres
  have h1 := Except.ok.inj hres
  have h2 : s' = { s with game := takeTurn s.game str, selected_square := none,
                          highlighted_squares := [] } :=
    (congrArg Prod.fst h1).symm
  rw [h2]
  exact ⟨rfl, rfl⟩

/-- C10 witness: with the rejecting engine `tt0`, the committing click on
the concrete state ends idle. -/
theorem rejected_move_leaves_idle_witness :
    idleState.selected_square = none ∧ idleState.highlighted_squares = [] :=
  rejected_move_leaves_idle gvm0 tt0 commitState (6, 4) (4, 4) "e2 e4"
    rfl (by decide) (by decide) rfl idleState ["e2 e4"] rfl

/-- The selection branch on a square that is empty or holds a piece not of
the current-turn colour: the square becomes selected, highlights stay
empty, the engine is not queried for targets. -/
lemma select_branch_inert {EP CA : Type}
    (getValidMoves : Piece → Nat × Nat → List (List Piece) → EP → CA → Colour → List (Nat × Nat))
    (s : AppState EP CA) (rank file : Nat) (p : Piece)
    (hboard : boardGet s.game.board rank file = some p)
    (hcol : ∀ col, get_colour p = some col → col ≠ s.game.current_turn) :
    select_branch getValidMoves s rank file =
      Except.ok ({ s with selected_square := some (rank, file),
                          highlighted_squares := [] }, []) := by
  cases h : get_colour p with
  | none => simp [select_branch, hboard, h]
  | some col => simp [select_branch, hboard, h, hcol col h]

/-- C2 counterexample: from the idle concrete state, clicking the empty
square (0,0) does not leave the machine idle — the square becomes the
selected square (with empty highlights). -/
theorem click_empty_from_idle_selects_cex :
    boardGet idleState.game.board 0 0 = some Piece.Empty ∧
    idleState.selected_square = none ∧
    mouse_button_up_event gvm0 tt0 idleState MouseButton.Left 0 0 =
      Except.ok ({ idleState with selected_square := some (0, 0) }, []) ∧
    (some (0, 0) : Option (Nat × Nat)) ≠ none :=
  ⟨rfl, rfl, rfl, by decide⟩

/-- C2 amended.  Clicking a square that is empty or holds a piece not of
the current-turn colour, and that is neither the anchor nor a highlighted
target, selects that square with an empty highlight set (it does not
return the machine to the idle no-selection state). -/
theorem click_inert_square_selects {EP CA : Type}
    (getValidMoves : Piece → Nat × Nat → List (List Piece) → EP → CA → Colour → List (Nat × Nat))
    (takeTurn : Game EP CA → String → Game EP CA)
    (s : AppState EP CA) (c : Nat × Nat) (p : Piece)
    (hboard : boardGet s.game.board c.1 c.2 = some p)
    (hcol : ∀ col, get_colour p = some col → col ≠ s.game.current_turn)
    (hanchor : ∀ a, s.selected_square = some a → a ≠ c)
    (htarget : c ∉ s.highlighted_squares) :
    mouse_button_up_event getValidMoves takeTurn s MouseButton.Left
        (c.2 * 90) (c.1 * 90) =
      Except.ok ({ s with selected_square := some c,
                          highlighted_squares := [] }, []) := by
  obtain ⟨cr, cf⟩ := c
  have hsb := select_branch_inert getValidMoves s cr cf p hboard hcol
  cases hsel : s.selected_square with
  | none =>
    simp [mouse_button_up_event, squareFromPixel, GRID_CELL_SIZE, hsel, hsb]
  | some a =>
    have hne : a ≠ (cr, cf) := hanchor a hsel
    simp [mouse_button_up_event, squareFromPixel, GRID_CELL_SIZE, hsel, hne,
      htarget, hsb]

/-- C2 amended witness: clicking the empty square (0,0) from the concrete
idle state selects it with no highlights. -/
theorem click_inert_square_selects_witness :
    mouse_button_up_event gvm0 tt0 idleState MouseButton.Left 0 0 =
      Except.ok ({ idleState with
                   selected_square := some (0, 0),
                   highlighted_squares := [] }, []) :=
  click_inert_square_selects gvm0 tt0 idleState (0, 0) Piece.Empty rfl
    (fun _ h => Option.noConfusion h) (fun _ h => Option.noConfusion h) (by decide)

/-- The highlight invariant: highlights are non-empty only when some
square is selected and the piece on it has the current-turn colour. -/
def highlight_inv {EP CA : Type} (s : AppState EP CA) : Prop :=
  s.highlighted_squares ≠ [] →
    ∃ c p, s.selected_square = some c ∧
      boardGet s.game.board c.1 c.2 = some p ∧
      get_colour p = some s.game.current_turn

lemma highlight_inv_of_empty {EP CA : Type} (s : AppState EP CA)
    (h : s.highlighted_squares = []) : highlight_inv s :=
  fun hne => absurd h hne

/-- The selection branch establishes the highlight invariant: it either
clears highlights or fills them for a piece of the current-turn colour on
the square it just selected. -/
lemma select_branch_inv {EP CA : Type}
    (getValidMoves : Piece → Nat × Nat → List (List Piece) → EP → CA → Colour → List (Nat × Nat))
    (s : AppState EP CA) (rank file : Nat)
    (s' : AppState EP CA) (log : List String)
    (h : select_branch getValidMoves s rank file = Except.ok (s', log)) :
    highlight_inv s' := by
  unfold select_branch at h
  cases hb : boardGet s.game.board rank file with
  | none => rw [hb] at h; exact absurd h (by simp)
  | some p =>
    rw [hb] at h
    dsimp only [] at h
    cases hc : get_colour p with
    | none =>
      rw [hc] at h
      have h2 : s' = { s with selected_square := some (rank, file),
                              highlighted_squares := [] } :=
        (congrArg Prod.fst (Except.ok.inj h)).symm
      exact highlight_inv_of_empty s' (by rw [h2])
    | some col =>
      rw [hc] at h
      dsimp only [] at h
      by_cases hcol : col = s.game.current_turn
      · rw [if_pos hcol] at h
        have h2 : s' = { s with selected_square := some (rank, file),
                                highlighted_squares :=
                                  getValidMoves p (rank, file) s.game.board
                                    s.game.en_passant_square s.game.castlings
                                    s.game.current_turn } :=
          (congrArg Prod.fst (Except.ok.inj h)).symm
        subst h2
        intro _
        exact ⟨(rank, file), p, rfl, hb, by rw [hc, hcol]⟩
      · rw [if_neg hcol] at h
        have h2 : s' = { s with selected_square := some (rank, file),
                                highlighted_squares := [] } :=
          (congrArg Prod.fst (Except.ok.inj h)).symm
        exact highlight_inv_of_empty s' (by rw [h2])

/-- Every non-panicking run of the click handler re-establishes the
highlight invariant. -/
lemma mouse_inv {EP CA : Type}
    (getValidMoves : Piece → Nat × Nat → List (List Piece) → EP → CA → Colour → List (Nat × Nat))
    (takeTurn : Game EP CA → String → Game EP CA)
    (s : AppState EP CA) (hinv : highlight_inv s)
    (button : MouseButton) (x y : Nat)
    (s' : AppState EP CA) (log : List String)
    (h : mouse_button_up_event getValidMoves takeTurn s button x y =
      Except.ok (s', log)) :
    highlight_inv s' := by
  unfold mouse_button_up_event at h
  by_cases hbtn : button = MouseButton.Left
  · rw [if_pos hbtn] at h
    simp only [] at h
    cases hsel : s.selected_square with
    | none =>
      rw [hsel] at h
      exact select_branch_inv getValidMoves s _ _ s' log h
    | some pos =>
      rw [hsel] at h
      dsimp only [] at h
      by_cases h1 : pos = ((squareFromPixel x y).1, (squareFromPixel x y).2)
      · rw [if_pos h1] at h
        have h2 : s' = { s with selected_square := none,
                                highlighted_squares := [] } :=
          (congrArg Prod.fst (Except.ok.inj h)).symm
        exact highlight_inv_of_empty s' (by rw [h2])
      · rw [if_neg h1] at h
        by_cases h2 : ((squareFromPixel x y).1, (squareFromPixel x y).2) ∈
            s.highlighted_squares
        · rw [if_pos h2] at h
          cases hms : move_string pos ((squareFromPixel x y).1, (squareFromPixel x y).2) with
          | error e => rw [hms] at h; exact absurd h (by simp)
          | ok str =>
            rw [hms] at h
            have h3 : s' = { s with game := takeTurn s.game str,
                                    selected_square := none,
                                    highlighted_squares := [] } :=
              (congrArg Prod.fst (Except.ok.inj h)).symm
            exact highlight_inv_of_empty s' (by rw [h3])
        · rw [if_neg h2] at h
          exact select_branch_inv getValidMoves s _ _ s' log h
  · rw [if_neg hbtn] at h
    have h2 : s' = s := (congrArg Prod.fst (Except.ok.inj h)).symm
    exact h2 ▸ hinv

/-- C7.  Both input-event handlers preserve the highlight invariant: a
non-panicking click leaves a state where highlights are non-empty only
with a selected square holding a current-turn-coloured piece (so clicks on
empty or opposing squares never produce highlights), and so does any key
event. -/
theorem highlight_invariant_preserved {EP CA : Type}
    (getValidMoves : Piece → Nat × Nat → List (List Piece) → EP → CA → Colour → List (Nat × Nat))
    (takeTurn : Game EP CA → String → Game EP CA)
    (gameNew : Game EP CA) (s : AppState EP CA)
    (hinv : highlight_inv s)
    (button : MouseButton) (x y : Nat) (k : KeyCode)
    (s' : AppState EP CA) (log : List String)
    (hmouse : mouse_button_up_event getValidMoves takeTurn s button x y =
      Except.ok (s', log)) :
    highlight_inv s' ∧ highlight_inv (key_down_event gameNew s k).1 := by
  refine ⟨mouse_inv getValidMoves takeTurn s hinv button x y s' log hmouse, ?_⟩
  cases k with
  | Escape => exact hinv
  | R => exact highlight_inv_of_empty _ rfl
  | Other => exact hinv

/-- C7 witness: a concrete click and the reset key, both preserving the
invariant. -/
theorem highlight_invariant_preserved_witness :
    highlight_inv ({ idleState with selected_square := some (0, 0) }) ∧
      highlight_inv (key_down_event game0 idleState KeyCode.R).1 :=
  highlight_invariant_preserved gvm0 tt0 game0 idleState
    (fun hne => absurd rfl hne) MouseButton.Left 0 0 KeyCode.R
    ({ idleState with selected_square := some (0, 0) }) [] rfl
